import Mathlib

/-
Verification development for the two-stage ingestion pipeline
(`src/ingest_function/main.py` and `src/worker_function/main.py`).

The worker's regex redaction, processing-cost simulation and Firestore
persistence, and the ingest side's normalization and HTTP error mapping,
are embedded as executable Lean definitions below.  Modelling choices:

  * Python `re` character classes are modelled over their ASCII meaning:
    a digit is `Char.isDigit`, a word character (for a word boundary) is
    alphanumeric or an underscore.  All redaction patterns start and end
    with a digit, so a word boundary at the pattern edge holds exactly when
    the neighbouring character (if any) is not a word character.
  * `re.sub` scans left to right, replaces each non-overlapping match and
    resumes after the match; zero-width boundary conditions at the resume
    point look at the original characters, which the scanner models by
    threading the previous original character.  The scanner recurses on an
    explicit fuel initialized to the length of the input, which the scan
    never exceeds (one character or one whole match is consumed per step).
  * The base64 transport encoding of the Pub/Sub message body is modelled
    as the identity on the decoded UTF-8 text: `PubSubEvent.data` holds the
    text itself, and an empty string is exactly an empty/absent body.
  * Firestore is a list of (document path, document) pairs; a document is
    a list of (field name, value) pairs; `set(..., merge=True)` upserts
    the written fields into the document at the path, preserving others.
  * `uuid.uuid4()` is modelled as an injected parameter `gen` holding the
    freshly generated identifier.
  * `time.sleep` is modelled by returning the duration that would be
    slept; `json.dumps` on a response body is modelled by the JSON value
    itself; the Pub/Sub publish is a fire-and-forget handoff with no
    effect on the HTTP response.
-/

/-! ## Worker: redaction (`_redact_sensitive`) -/

/-- Python `\w` (ASCII): letters, digits, underscore. -/
def wordChar (c : Char) : Bool := c.isAlphanum || c = '_'

/-- Whether the character on one side of a position is a word character
(`none` = start/end of the string, never a word character). -/
def wordB : Option Char → Bool
  | none => false
  | some c => wordChar c

/-- The separator `-` of the phone-like patterns. -/
def isDash (c : Char) : Bool := c = '-'

/-- Match a fixed-length sequence of character predicates at the head of a
list, returning the remainder on success. -/
def matchPat : List (Char → Bool) → List Char → Option (List Char)
  | [], cs => some cs
  | _ :: _, [] => none
  | p :: ps, c :: cs => if p c then matchPat ps cs else none

/-- Try to match the pattern `\b p ps... \b` at the current position, where
`prev` is the character just before the position in the original string.
All patterns used here start and end with a digit (a word character), so
each boundary holds exactly when the neighbouring side is not a word
character. -/
def tryMatch (p : Char → Bool) (ps : List (Char → Bool)) (prev : Option Char)
    (cs : List Char) : Option (List Char) :=
  if wordB prev then none
  else
    match matchPat (p :: ps) cs with
    | none => none
    | some rest => if wordB rest.head? then none else some rest

/-- The replacement token `[REDACTED]` as a character list. -/
def REDACTED : List Char := ['[', 'R', 'E', 'D', 'A', 'C', 'T', 'E', 'D', ']']

/-- Tail of the 7-digit pattern `\b\d{3}-\d{4}\b` (after its leading digit). -/
def patArest : List (Char → Bool) :=
  [Char.isDigit, Char.isDigit, isDash,
   Char.isDigit, Char.isDigit, Char.isDigit, Char.isDigit]

/-- Tail of the 10-digit pattern `\b\d{3}-\d{3}-\d{4}\b` (after its leading
digit). -/
def patBrest : List (Char → Bool) :=
  [Char.isDigit, Char.isDigit, isDash,
   Char.isDigit, Char.isDigit, Char.isDigit, isDash,
   Char.isDigit, Char.isDigit, Char.isDigit, Char.isDigit]

/-- The `re.sub` scan: at each position try the pattern; on a match emit
`[REDACTED]` and resume after the matched characters (whose last character
becomes the new left context), otherwise copy one character.  `fuel` is an
upper bound on the number of remaining steps; the scan consumes at least
one character per step, so fuel `cs.length` is always sufficient. -/
def reSubGo (p : Char → Bool) (ps : List (Char → Bool)) :
    Nat → Option Char → List Char → List Char
  | 0, _, cs => cs
  | _ + 1, _, [] => []
  | fuel + 1, prev, c :: cs =>
    match tryMatch p ps prev (c :: cs) with
    | some rest =>
      REDACTED ++ reSubGo p ps fuel ((List.take (ps.length + 1) (c :: cs)).getLast?) rest
    | none => c :: reSubGo p ps fuel (some c) cs

/-- `re.sub(pattern, "[REDACTED]", text)` for a fixed-length pattern with
word boundaries at both ends. -/
def reSub (p : Char → Bool) (ps : List (Char → Bool)) (prev : Option Char)
    (cs : List Char) : List Char :=
  reSubGo p ps cs.length prev cs

/-- First substitution of `_redact_sensitive`:
`re.sub(r"\b\d{3}-\d{4}\b", "[REDACTED]", text)`. -/
def subA (cs : List Char) : List Char := reSub Char.isDigit patArest none cs

/-- Second substitution of `_redact_sensitive`:
`re.sub(r"\b\d{3}-\d{3}-\d{4}\b", "[REDACTED]", text)`. -/
def subB (cs : List Char) : List Char := reSub Char.isDigit patBrest none cs

/-- `_redact_sensitive(text)`: the 7-digit pattern is substituted first,
then the 10-digit pattern, over the full text. -/
def redact_sensitive (text : String) : String :=
  String.mk (subB (subA text.data))

/-- Decidable scan stating that the pattern `\b p ps... \b` matches at no
position of the list (with left context `prev` for the first position). -/
def noMatch (p : Char → Bool) (ps : List (Char → Bool)) :
    Option Char → List Char → Bool
  | _, [] => true
  | prev, c :: cs => (tryMatch p ps prev (c :: cs)).isNone && noMatch p ps (some c) cs

/-! ## Worker: processing simulator (`_simulate_heavy_processing`) -/

/-- Default of `DELAY_PER_CHAR` (the source default string is `"0.05"`). -/
def DELAY_PER_CHAR_default : ℚ := 5 / 100

/-- Default of `MAX_TOTAL_SLEEP` (the source default string is `"55"`). -/
def MAX_TOTAL_SLEEP_default : ℚ := 55

/-- `_simulate_heavy_processing(text)`: sleeps `delay_per_char` per
character, capped at `max_sleep`.  The model returns the duration passed
to `time.sleep`. -/
def simulate_heavy_processing (delay_per_char max_sleep : ℚ) (text : String) : ℚ :=
  let total_sleep : ℚ := delay_per_char * text.length
  min total_sleep max_sleep

/-! ## Worker: Firestore model and `process_log` -/

/-- A Firestore document: an association list of field name/value pairs. -/
abbrev Doc := List (String × String)

/-- Overwrite the field `k` of a document (or append it if absent). -/
def upsertField : Doc → String → String → Doc
  | [], k, v => [(k, v)]
  | (k0, v0) :: rest, k, v =>
    if k0 = k then (k, v) :: rest else (k0, v0) :: upsertField rest k v

/-- Read a field of a document. -/
def getField : Doc → String → Option String
  | [], _ => none
  | (k0, v0) :: rest, k => if k0 = k then some v0 else getField rest k

/-- Field-level merge: every field of `new` overwrites the corresponding
field of `old`; fields of `old` not named in `new` are preserved. -/
def mergeDoc (old new : Doc) : Doc :=
  new.foldl (fun d kv => upsertField d kv.1 kv.2) old

/-- A hierarchical document path, one element per `collection`/`document`
component. -/
abbrev DocPath := List String

/-- The worker's document key
`db.collection("tenants").document(tenant_id).collection("processed_logs").document(log_id)`. -/
def doc_path (tenant_id log_id : String) : DocPath :=
  [("tenants"), tenant_id, ("processed_logs"), log_id]

/-- The Firestore state: documents indexed by their path. -/
abbrev Store := List (DocPath × Doc)

/-- Read the document at a path. -/
def getDoc : Store → DocPath → Option Doc
  | [], _ => none
  | (q, d) :: rest, p => if q = p then some d else getDoc rest p

/-- Number of documents stored at a path (a real document store holds at
most one). -/
def countKey : Store → DocPath → Nat
  | [], _ => 0
  | (q, _) :: rest, p => (if q = p then 1 else 0) + countKey rest p

/-- `doc_ref.set(fields, merge=True)`: merge-upsert of the given fields
into the document at path `p` (creating it if absent). -/
def set_merge : Store → DocPath → Doc → Store
  | [], p, fields => [(p, fields)]
  | (q, d) :: rest, p, fields =>
    if q = p then (q, mergeDoc d fields) :: rest
    else (q, d) :: set_merge rest p fields

/-- The `source`, `original_text` and `modified_data` fields of the
document at a path — the content the idempotence property is scoped to
(`processed_at` excluded). -/
def contentView (st : Store) (p : DocPath) :
    Option (Option String × Option String × Option String) :=
  (getDoc st p).map fun d =>
    (getField d ("source"), getField d ("original_text"), getField d ("modified_data"))

/-- `dict.get` on a string-to-string mapping (message attributes, HTTP
headers). -/
def lookupStr : List (String × String) → String → Option String
  | [], _ => none
  | (k, v) :: rest, key => if k = key then some v else lookupStr rest key

/-- A delivered Pub/Sub message: `event["data"]` (the UTF-8 text; the
base64 transport encoding is modelled as the identity, and an empty string
is an empty/absent body) and `event["attributes"]`. -/
structure PubSubEvent where
  data : String
  attributes : List (String × String)

/-- The worker's raised exception (`RuntimeError` in the source; the
spec's taxonomy calls it `MissingIdentityError`). -/
inductive WorkerErr where
  | runtimeError (msg : String)
  deriving DecidableEq

/-- Outcome of one worker invocation: `err = some _` models a raised
exception (Pub/Sub will redeliver); `store` is the storage state after the
invocation. -/
structure WorkerResult where
  err : Option WorkerErr
  store : Store

/-- Python truthiness of `attributes.get(...)`: `None` and `""` are falsy. -/
def strTruthy : Option String → Bool
  | none => false
  | some s => if s = ("") then false else true

/-- `process_log(event, context)`: decode, validate identity, (simulate
processing — no storage effect, modelled by `simulate_heavy_processing`),
redact, and merge-write the processed record at the tenant-scoped key. -/
def process_log (event : PubSubEvent) (st : Store) (now : String) : WorkerResult :=
  let message_data := event.data
  let attributes := event.attributes
  -- `if not message_data: return` — nothing to do; ack and exit.
  if message_data = ("") then ⟨none, st⟩
  else
    let original_text := message_data
    let tenant_id := lookupStr attributes ("tenant_id")
    let log_id := lookupStr attributes ("log_id")
    let source := (lookupStr attributes ("source")).getD ("unknown")
    -- `if not tenant_id or not log_id: raise RuntimeError(...)`
    if strTruthy tenant_id = false ∨ strTruthy log_id = false then
      ⟨some (WorkerErr.runtimeError
        ("Missing tenant_id or log_id in Pub/Sub message attributes")), st⟩
    else
      -- `_simulate_heavy_processing(original_text)` happens here; it only
      -- sleeps and has no effect on the store.
      let modified := redact_sensitive original_text
      -- tenant_id/log_id are present and non-empty on this branch; `getD`
      -- extracts the attribute values.
      ⟨none, set_merge st (doc_path (tenant_id.getD ("")) (log_id.getD ("")))
        [("source", source), ("original_text", original_text),
         ("modified_data", modified), ("processed_at", now)]⟩

/-! ## Ingest: JSON values and normalization -/

/-- A parsed JSON value (`request.get_json` result). -/
inductive JsonVal where
  | null
  | bool (b : Bool)
  | num (n : Int)
  | str (s : String)
  | arr (xs : List JsonVal)
  | obj (fields : List (String × JsonVal))

/-- Python truthiness of a JSON value. -/
def jsonTruthy : JsonVal → Bool
  | .null => false
  | .bool b => b
  | .num n => if n = 0 then false else true
  | .str s => if s = ("") then false else true
  | .arr xs => !xs.isEmpty
  | .obj fs => !fs.isEmpty

/-- `dict.get` on a parsed JSON object.  JSON parsing keeps the last of
duplicate keys, so later entries override earlier ones. -/
def dictGet : List (String × JsonVal) → String → Option JsonVal
  | [], _ => none
  | (k, v) :: rest, key =>
    match dictGet rest key with
    | some w => some w
    | none => if k = key then some v else none

/-- An inbound HTTP request, as seen through the Flask request API used by
the source: `method`, `headers`, `get_json(silent=True)` (`none` when the
body is not valid JSON) and `get_data()` decoded as UTF-8 (`none` when the
bytes are not valid UTF-8, which raises `UnicodeDecodeError`). -/
structure Request where
  method : String
  headers : List (String × String)
  json_body : Option JsonVal
  body_utf8 : Option String

/-- An exception escaping a normalizer: `BadRequest(message, status_code)`
(`status_code` defaults to 400 at every raise site in the source), or any
other Python exception (`otherError` carries `str(exc)`). -/
inductive IngestExc where
  | badRequest (message : String) (status_code : Nat)
  | otherError (detail : String)

/-- The normalized internal representation returned by the normalizers:
`{"tenant_id": ..., "log_id": ..., "text": ..., "source": ...}`.  The
`log_id` entry is whatever JSON value the caller supplied (it is never
type-checked), hence `JsonVal`. -/
structure NormalizedIntake where
  tenant_id : String
  log_id : JsonVal
  text : String
  source : String

/-- `_normalize_json(request)`.  The source messages quote the field names
with apostrophes ("Field 'tenant_id' is required and must be a string");
the apostrophes are dropped here. -/
def normalize_json (req : Request) (gen : String) : Except IngestExc NormalizedIntake :=
  match req.json_body with
  | none => .error (.badRequest ("Invalid JSON body") 400)
  | some (.obj fields) =>
    let tenant_id := dictGet fields ("tenant_id")
    -- `log_id = data.get("log_id") or str(uuid.uuid4())`
    let log_id : JsonVal :=
      match dictGet fields ("log_id") with
      | some v => if jsonTruthy v then v else .str gen
      | none => .str gen
    let text := dictGet fields ("text")
    -- `if not tenant_id or not isinstance(tenant_id, str)`: accepts
    -- exactly a non-empty JSON string.
    match tenant_id with
    | some (.str t) =>
      if t = ("") then .error (.badRequest ("Field tenant_id is required and must be a string") 400)
      else
        match text with
        | some (.str x) =>
          if x = ("") then .error (.badRequest ("Field text is required and must be a string") 400)
          else .ok ⟨t, log_id, x, ("json_upload")⟩
        | _ => .error (.badRequest ("Field text is required and must be a string") 400)
    | _ => .error (.badRequest ("Field tenant_id is required and must be a string") 400)
  -- `data.get` on a non-mapping JSON value raises AttributeError.
  | some _ => .error (.otherError ("AttributeError: get"))

/-- `_normalize_text(request)`.  The source message is
"Header 'X-Tenant-ID' is required for text/plain payloads"; the
apostrophes are dropped here. -/
def normalize_text (req : Request) (gen : String) : Except IngestExc NormalizedIntake :=
  match lookupStr req.headers ("X-Tenant-ID") with
  | none => .error (.badRequest ("Header X-Tenant-ID is required for text/plain payloads") 400)
  | some tenant_id =>
    if tenant_id = ("") then
      .error (.badRequest ("Header X-Tenant-ID is required for text/plain payloads") 400)
    else
      match req.body_utf8 with
      | none => .error (.otherError ("UnicodeDecodeError"))
      | some text => .ok ⟨tenant_id, .str gen, text, ("text_upload")⟩

/-! ## Ingest: HTTP entry point -/

/-- Whether `needle` occurs at the start of `haystack`. -/
def matchHere : List Char → List Char → Bool
  | [], _ => true
  | _ :: _, [] => false
  | a :: as, b :: bs => if a = b then matchHere as bs else false

/-- Python `needle in haystack` on strings: contiguous substring. -/
def containsSub : List Char → List Char → Bool
  | needle, [] => matchHere needle []
  | needle, b :: bs => matchHere needle (b :: bs) || containsSub needle bs

/-- The HTTP response triple `(json.dumps(body), status_code, headers)`;
serialization is modelled by keeping the JSON value. -/
structure HttpResponse where
  body : JsonVal
  status_code : Nat
  headers : List (String × String)

/-- `_make_response(body, status_code)`. -/
def make_response (body : JsonVal) (status_code : Nat) : HttpResponse :=
  ⟨body, status_code, [("Content-Type", "application/json")]⟩

/-- The two `except` clauses of `ingest`: `BadRequest` maps to its own
status with body `{"error": message}`; any other exception maps to 500. -/
def handleExc : IngestExc → HttpResponse
  | .badRequest msg code => make_response (.obj [("error", .str msg)]) code
  | .otherError d =>
    make_response (.obj [("error", .str ("Internal server error")), ("detail", .str d)]) 500

/-- `request.headers.get("Content-Type", "") or ""`. -/
def contentTypeOf (req : Request) : String :=
  (lookupStr req.headers ("Content-Type")).getD ("")

/-- `ingest(request)`: the HTTP entry point.  The Pub/Sub publish of a
successfully normalized message is a fire-and-forget handoff with no
effect on the response, so it is not modelled. -/
def ingest (req : Request) (gen : String) : HttpResponse :=
  if req.method ≠ ("POST") then
    make_response (.obj [("error", .str ("Method not allowed"))]) 405
  else
    let content_type := contentTypeOf req
    let normalized : Except IngestExc NormalizedIntake :=
      if containsSub ("application/json").data content_type.data then
        normalize_json req gen
      else if containsSub ("text/plain").data content_type.data then
        normalize_text req gen
      else
        .error (.badRequest ("Unsupported Content-Type. Use application/json or text/plain.") 400)
    match normalized with
    | .ok n =>
      make_response (.obj [("status", .str ("accepted")),
        ("tenant_id", .str n.tenant_id), ("log_id", n.log_id)]) 202
    | .error e => handleExc e

/-! ## Lemmas about the pattern matcher and the substitution scan -/

theorem matchPat_length : ∀ (qs : List (Char → Bool)) (xs ys : List Char),
    matchPat qs xs = some ys → ys.length + qs.length = xs.length := by
  intro qs
  induction qs with
  | nil =>
    intro xs ys h
    simp only [matchPat, Option.some.injEq] at h
    subst h
    simp
  | cons q qs ih =>
    intro xs ys h
    cases xs with
    | nil => simp [matchPat] at h
    | cons x xs =>
      simp only [matchPat] at h
      by_cases hq : q x = true
      · rw [if_pos hq] at h
        have := ih xs ys h
        simp only [List.length_cons]
        omega
      · rw [if_neg hq] at h
        simp at h

theorem tryMatch_some_elim {p : Char → Bool} {ps : List (Char → Bool)}
    {prev : Option Char} {cs rest : List Char}
    (h : tryMatch p ps prev cs = some rest) :
    wordB prev = false ∧ matchPat (p :: ps) cs = some rest ∧ wordB rest.head? = false := by
  unfold tryMatch at h
  by_cases hw : wordB prev = true
  · rw [if_pos hw] at h; simp at h
  · rw [if_neg hw] at h
    have hw' : wordB prev = false := by
      cases hwb : wordB prev
      · rfl
      · exact absurd hwb hw
    cases hm : matchPat (p :: ps) cs with
    | none => rw [hm] at h; simp at h
    | some r =>
      rw [hm] at h
      dsimp only at h
      by_cases hb : wordB r.head? = true
      · rw [if_pos hb] at h; simp at h
      · rw [if_neg hb] at h
        have hb' : wordB r.head? = false := by
          cases hbb : wordB r.head?
          · rfl
          · exact absurd hbb hb
        simp only [Option.some.injEq] at h
        subst h
        exact ⟨hw', rfl, hb'⟩

theorem tryMatch_none_forces {p : Char → Bool} {ps : List (Char → Bool)}
    {prev : Option Char} {cs r : List Char}
    (h : tryMatch p ps prev cs = none) (hw : wordB prev = false)
    (hm : matchPat (p :: ps) cs = some r) : wordB r.head? = true := by
  unfold tryMatch at h
  rw [if_neg (by simp [hw]), hm] at h
  dsimp only at h
  by_cases hb : wordB r.head? = true
  · exact hb
  · rw [if_neg hb] at h; simp at h

theorem tryMatch_none_wordprev {p : Char → Bool} {ps : List (Char → Bool)}
    {prev : Option Char} {cs : List Char} (hw : wordB prev = true) :
    tryMatch p ps prev cs = none := by
  unfold tryMatch
  rw [if_pos hw]

theorem tryMatch_none_head {p : Char → Bool} {ps : List (Char → Bool)}
    {q : Option Char} {c : Char} {cs : List Char}
    (hc : p c = false) : tryMatch p ps q (c :: cs) = none := by
  unfold tryMatch
  have hm : matchPat (p :: ps) (c :: cs) = none := by
    simp only [matchPat]
    rw [if_neg (by simp [hc])]
  rw [hm]
  simp

theorem reSubGo_fuel (p : Char → Bool) (ps : List (Char → Bool)) :
    ∀ (n m : Nat) (prev : Option Char) (l : List Char),
      l.length ≤ n → l.length ≤ m →
      reSubGo p ps n prev l = reSubGo p ps m prev l := by
  intro n
  induction n with
  | zero =>
    intro m prev l hn _
    have : l = [] := List.eq_nil_of_length_eq_zero (Nat.le_zero.mp hn)
    subst this
    cases m <;> rfl
  | succ n ih =>
    intro m prev l hn hm
    cases l with
    | nil => cases m <;> rfl
    | cons c cs =>
      cases m with
      | zero => simp at hm
      | succ m =>
        cases htm : tryMatch p ps prev (c :: cs) with
        | some rest =>
          have hlen := matchPat_length (p :: ps) (c :: cs) rest (tryMatch_some_elim htm).2.1
          simp only [List.length_cons] at hlen hn hm
          simp only [reSubGo, htm]
          rw [ih m _ rest (by omega) (by omega)]
        | none =>
          simp only [List.length_cons] at hn hm
          simp only [reSubGo, htm]
          rw [ih m (some c) cs (by omega) (by omega)]

theorem reSub_nil (p : Char → Bool) (ps : List (Char → Bool)) (prev : Option Char) :
    reSub p ps prev [] = [] := rfl

theorem reSub_eq_none {p : Char → Bool} {ps : List (Char → Bool)} {prev : Option Char}
    {c : Char} {cs : List Char}
    (h : tryMatch p ps prev (c :: cs) = none) :
    reSub p ps prev (c :: cs) = c :: reSub p ps (some c) cs := by
  unfold reSub
  simp only [List.length_cons, reSubGo, h]

theorem reSub_eq_some {p : Char → Bool} {ps : List (Char → Bool)} {prev : Option Char}
    {c : Char} {cs rest : List Char}
    (h : tryMatch p ps prev (c :: cs) = some rest) :
    reSub p ps prev (c :: cs) =
      REDACTED ++ reSub p ps ((List.take (ps.length + 1) (c :: cs)).getLast?) rest := by
  have hlen := matchPat_length (p :: ps) (c :: cs) rest (tryMatch_some_elim h).2.1
  simp only [List.length_cons] at hlen
  unfold reSub
  simp only [List.length_cons, reSubGo, h]
  congr 1
  exact reSubGo_fuel p ps cs.length rest.length _ rest (by omega) (by omega)

theorem word_of_digit {c : Char} (h : Char.isDigit c = true) : wordChar c = true := by
  simp [wordChar, Char.isAlphanum, h]

theorem not_digit_of_not_word {x : Char} (h : wordB (some x) = false) :
    Char.isDigit x = false := by
  cases hd : Char.isDigit x
  · rfl
  · have hwx := word_of_digit hd
    simp only [wordB] at h
    rw [h] at hwx
    exact absurd hwx (by decide)

theorem dash_eq {c : Char} (h : isDash c = true) : c = '-' := by
  simpa [isDash] using h

theorem ne_bracket_digit {c : Char} (h : Char.isDigit c = true) : c ≠ '[' := by
  intro he
  rw [he] at h
  exact absurd h (by decide)

theorem ne_bracket_dash {c : Char} (h : isDash c = true) : c ≠ '[' := by
  rw [dash_eq h]
  decide

theorem noMatch_dig_cons (q : Option Char) (c : Char) {ps : List (Char → Bool)}
    {l : List Char} (hc : Char.isDigit c = false) :
    noMatch Char.isDigit ps q (c :: l) = noMatch Char.isDigit ps (some c) l := by
  simp only [noMatch, tryMatch_none_head hc, Option.isNone_none, Bool.true_and]

theorem redtok_scan (ps : List (Char → Bool)) (q : Option Char) (l : List Char) :
    noMatch Char.isDigit ps q (REDACTED ++ l) = noMatch Char.isDigit ps (some (']')) l := by
  simp only [REDACTED, List.cons_append, List.nil_append]
  rw [noMatch_dig_cons q ('[') (by decide), noMatch_dig_cons _ ('R') (by decide),
    noMatch_dig_cons _ ('E') (by decide), noMatch_dig_cons _ ('D') (by decide),
    noMatch_dig_cons _ ('A') (by decide), noMatch_dig_cons _ ('C') (by decide),
    noMatch_dig_cons _ ('T') (by decide), noMatch_dig_cons _ ('E') (by decide),
    noMatch_dig_cons _ ('D') (by decide), noMatch_dig_cons _ (']') (by decide)]

theorem reSub_head (p : Char → Bool) (ps : List (Char → Bool)) (prev : Option Char)
    (l : List Char) :
    reSub p ps prev l = [] ∨ (reSub p ps prev l).head? = some ('[') ∨
      (reSub p ps prev l).head? = l.head? := by
  cases l with
  | nil => exact Or.inl (reSub_nil p ps prev)
  | cons c cs =>
    cases htm : tryMatch p ps prev (c :: cs) with
    | some rest =>
      rw [reSub_eq_some htm]
      exact Or.inr (Or.inl rfl)
    | none =>
      rw [reSub_eq_none htm]
      exact Or.inr (Or.inr rfl)

theorem noMatch_swap {ps : List (Char → Bool)} {q : Option Char} {l : List Char}
    (q' : Option Char) (h : noMatch Char.isDigit ps q l = true)
    (hhead : ∀ x, l.head? = some x → Char.isDigit x = false) :
    noMatch Char.isDigit ps q' l = true := by
  cases l with
  | nil => rfl
  | cons c cs =>
    have hc : Char.isDigit c = false := hhead c rfl
    rw [noMatch_dig_cons q' c hc]
    rw [noMatch_dig_cons q c hc] at h
    exact h

theorem reSub_copy {p : Char → Bool} {ps : List (Char → Bool)} {prev : Option Char}
    {l : List Char} {d : Char} {out : List Char}
    (h : reSub p ps prev l = d :: out) (hd : d ≠ '[') :
    ∃ l', l = d :: l' ∧ tryMatch p ps prev (d :: l') = none ∧
      reSub p ps (some d) l' = out := by
  cases l with
  | nil => rw [reSub_nil] at h; exact absurd h (by simp)
  | cons c cs =>
    cases htm : tryMatch p ps prev (c :: cs) with
    | some rest =>
      rw [reSub_eq_some htm] at h
      simp only [REDACTED, List.cons_append, List.cons.injEq] at h
      exact absurd h.1.symm hd
    | none =>
      rw [reSub_eq_none htm] at h
      injection h with h1 h2
      subst h1
      exact ⟨cs, rfl, htm, h2⟩

theorem matchPat_cons_ex {q : Char → Bool} {qs : List (Char → Bool)} {l r : List Char}
    (h : matchPat (q :: qs) l = some r) :
    ∃ c l', l = c :: l' ∧ q c = true ∧ matchPat qs l' = some r := by
  cases l with
  | nil => simp [matchPat] at h
  | cons c l' =>
    simp only [matchPat] at h
    by_cases hq : q c = true
    · rw [if_pos hq] at h
      exact ⟨c, l', rfl, hq, h⟩
    · rw [if_neg hq] at h
      simp at h

theorem matchPat_patA {l r : List Char}
    (h : matchPat (Char.isDigit :: patArest) l = some r) :
    ∃ a0 a1 a2 a3 a4 a5 a6 a7,
      l = a0 :: a1 :: a2 :: a3 :: a4 :: a5 :: a6 :: a7 :: r ∧
      Char.isDigit a0 = true ∧ Char.isDigit a1 = true ∧ Char.isDigit a2 = true ∧
      isDash a3 = true ∧ Char.isDigit a4 = true ∧ Char.isDigit a5 = true ∧
      Char.isDigit a6 = true ∧ Char.isDigit a7 = true := by
  simp only [patArest] at h
  obtain ⟨a0, l0, rfl, h0, h⟩ := matchPat_cons_ex h
  obtain ⟨a1, l1, rfl, h1, h⟩ := matchPat_cons_ex h
  obtain ⟨a2, l2, rfl, h2, h⟩ := matchPat_cons_ex h
  obtain ⟨a3, l3, rfl, h3, h⟩ := matchPat_cons_ex h
  obtain ⟨a4, l4, rfl, h4, h⟩ := matchPat_cons_ex h
  obtain ⟨a5, l5, rfl, h5, h⟩ := matchPat_cons_ex h
  obtain ⟨a6, l6, rfl, h6, h⟩ := matchPat_cons_ex h
  obtain ⟨a7, l7, rfl, h7, h⟩ := matchPat_cons_ex h
  simp only [matchPat, Option.some.injEq] at h
  subst h
  exact ⟨a0, a1, a2, a3, a4, a5, a6, a7, rfl, h0, h1, h2, h3, h4, h5, h6, h7⟩

theorem matchPat_patB {l r : List Char}
    (h : matchPat (Char.isDigit :: patBrest) l = some r) :
    ∃ b0 b1 b2 b3 b4 b5 b6 b7 b8 b9 b10 b11,
      l = b0 :: b1 :: b2 :: b3 :: b4 :: b5 :: b6 :: b7 :: b8 :: b9 :: b10 :: b11 :: r ∧
      Char.isDigit b0 = true ∧ Char.isDigit b1 = true ∧ Char.isDigit b2 = true ∧
      isDash b3 = true ∧ Char.isDigit b4 = true ∧ Char.isDigit b5 = true ∧
      Char.isDigit b6 = true ∧ isDash b7 = true ∧ Char.isDigit b8 = true ∧
      Char.isDigit b9 = true ∧ Char.isDigit b10 = true ∧ Char.isDigit b11 = true := by
  simp only [patBrest] at h
  obtain ⟨b0, l0, rfl, h0, h⟩ := matchPat_cons_ex h
  obtain ⟨b1, l1, rfl, h1, h⟩ := matchPat_cons_ex h
  obtain ⟨b2, l2, rfl, h2, h⟩ := matchPat_cons_ex h
  obtain ⟨b3, l3, rfl, h3, h⟩ := matchPat_cons_ex h
  obtain ⟨b4, l4, rfl, h4, h⟩ := matchPat_cons_ex h
  obtain ⟨b5, l5, rfl, h5, h⟩ := matchPat_cons_ex h
  obtain ⟨b6, l6, rfl, h6, h⟩ := matchPat_cons_ex h
  obtain ⟨b7, l7, rfl, h7, h⟩ := matchPat_cons_ex h
  obtain ⟨b8, l8, rfl, h8, h⟩ := matchPat_cons_ex h
  obtain ⟨b9, l9, rfl, h9, h⟩ := matchPat_cons_ex h
  obtain ⟨b10, l10, rfl, h10, h⟩ := matchPat_cons_ex h
  obtain ⟨b11, l11, rfl, h11, h⟩ := matchPat_cons_ex h
  simp only [matchPat, Option.some.injEq] at h
  subst h
  exact ⟨b0, b1, b2, b3, b4, b5, b6, b7, b8, b9, b10, b11, rfl,
    h0, h1, h2, h3, h4, h5, h6, h7, h8, h9, h10, h11⟩

theorem headA (prev : Option Char) (c : Char) (cs : List Char)
    (h : tryMatch Char.isDigit patArest prev (c :: cs) = none) :
    tryMatch Char.isDigit patArest prev
      (c :: reSub Char.isDigit patArest (some c) cs) = none := by
  cases htm : tryMatch Char.isDigit patArest prev
      (c :: reSub Char.isDigit patArest (some c) cs) with
  | none => rfl
  | some r =>
    exfalso
    obtain ⟨hw, hm, hb⟩ := tryMatch_some_elim htm
    obtain ⟨a0, a1, a2, a3, a4, a5, a6, a7, heq, e0, e1, e2, e3, e4, e5, e6, e7⟩ :=
      matchPat_patA hm
    injection heq with hc hout
    subst hc
    obtain ⟨cs1, hcs1, _, hout1⟩ := reSub_copy hout (ne_bracket_digit e1)
    subst hcs1
    obtain ⟨cs2, hcs2, _, hout2⟩ := reSub_copy hout1 (ne_bracket_digit e2)
    subst hcs2
    obtain ⟨cs3, hcs3, _, hout3⟩ := reSub_copy hout2 (ne_bracket_dash e3)
    subst hcs3
    obtain ⟨cs4, hcs4, _, hout4⟩ := reSub_copy hout3 (ne_bracket_digit e4)
    subst hcs4
    obtain ⟨cs5, hcs5, _, hout5⟩ := reSub_copy hout4 (ne_bracket_digit e5)
    subst hcs5
    obtain ⟨cs6, hcs6, _, hout6⟩ := reSub_copy hout5 (ne_bracket_digit e6)
    subst hcs6
    obtain ⟨cs7, hcs7, _, hout7⟩ := reSub_copy hout6 (ne_bracket_digit e7)
    subst hcs7
    have hmp : matchPat (Char.isDigit :: patArest)
        (c :: a1 :: a2 :: a3 :: a4 :: a5 :: a6 :: a7 :: cs7) = some cs7 := by
      simp [matchPat, patArest, e0, e1, e2, e3, e4, e5, e6, e7]
    have hword := tryMatch_none_forces h hw hmp
    cases hcs7e : cs7 with
    | nil =>
      rw [hcs7e] at hword
      simp [wordB] at hword
    | cons w cs8 =>
      rw [hcs7e] at hout7 hword
      simp only [List.head?_cons] at hword
      have htmw : tryMatch Char.isDigit patArest (some a7) (w :: cs8) = none :=
        tryMatch_none_wordprev (show wordB (some a7) = true from word_of_digit e7)
      rw [reSub_eq_none htmw] at hout7
      rw [← hout7] at hb
      simp only [List.head?_cons] at hb
      rw [hword] at hb
      exact absurd hb (by decide)

theorem headB (prev : Option Char) (c : Char) (cs : List Char)
    (h : tryMatch Char.isDigit patArest prev (c :: cs) = none) :
    tryMatch Char.isDigit patBrest prev
      (c :: reSub Char.isDigit patArest (some c) cs) = none := by
  cases htm : tryMatch Char.isDigit patBrest prev
      (c :: reSub Char.isDigit patArest (some c) cs) with
  | none => rfl
  | some r =>
    exfalso
    obtain ⟨hw, hm, hb⟩ := tryMatch_some_elim htm
    obtain ⟨b0, b1, b2, b3, b4, b5, b6, b7, b8, b9, b10, b11, heq,
      d0, d1, d2, s3, d4, d5, d6, s7, d8, d9, d10, d11⟩ := matchPat_patB hm
    injection heq with hc hout
    subst hc
    obtain ⟨cs1, hcs1, _, hout1⟩ := reSub_copy hout (ne_bracket_digit d1)
    subst hcs1
    obtain ⟨cs2, hcs2, _, hout2⟩ := reSub_copy hout1 (ne_bracket_digit d2)
    subst hcs2
    obtain ⟨cs3, hcs3, _, hout3⟩ := reSub_copy hout2 (ne_bracket_dash s3)
    subst hcs3
    obtain ⟨cs4, hcs4, tm4, hout4⟩ := reSub_copy hout3 (ne_bracket_digit d4)
    subst hcs4
    obtain ⟨cs5, hcs5, _, hout5⟩ := reSub_copy hout4 (ne_bracket_digit d5)
    subst hcs5
    obtain ⟨cs6, hcs6, _, hout6⟩ := reSub_copy hout5 (ne_bracket_digit d6)
    subst hcs6
    obtain ⟨cs7, hcs7, _, hout7⟩ := reSub_copy hout6 (ne_bracket_dash s7)
    subst hcs7
    obtain ⟨cs8, hcs8, _, hout8⟩ := reSub_copy hout7 (ne_bracket_digit d8)
    subst hcs8
    obtain ⟨cs9, hcs9, _, hout9⟩ := reSub_copy hout8 (ne_bracket_digit d9)
    subst hcs9
    obtain ⟨cs10, hcs10, _, hout10⟩ := reSub_copy hout9 (ne_bracket_digit d10)
    subst hcs10
    obtain ⟨cs11, hcs11, _, hout11⟩ := reSub_copy hout10 (ne_bracket_digit d11)
    subst hcs11
    have hd3 : b3 = '-' := dash_eq s3
    subst hd3
    have hmp : matchPat (Char.isDigit :: patArest)
        (b4 :: b5 :: b6 :: b7 :: b8 :: b9 :: b10 :: b11 :: cs11) = some cs11 := by
      simp [matchPat, patArest, d4, d5, d6, s7, d8, d9, d10, d11]
    have hword := tryMatch_none_forces tm4 (by decide) hmp
    cases hcs11e : cs11 with
    | nil =>
      rw [hcs11e] at hword
      simp [wordB] at hword
    | cons w cs12 =>
      rw [hcs11e] at hout11 hword
      simp only [List.head?_cons] at hword
      have htmw : tryMatch Char.isDigit patArest (some b11) (w :: cs12) = none :=
        tryMatch_none_wordprev (show wordB (some b11) = true from word_of_digit d11)
      rw [reSub_eq_none htmw] at hout11
      rw [← hout11] at hb
      simp only [List.head?_cons] at hb
      rw [hword] at hb
      exact absurd hb (by decide)

theorem noScan_after (psX : List (Char → Bool))
    (hstep : ∀ (prev : Option Char) (c : Char) (cs : List Char),
      tryMatch Char.isDigit patArest prev (c :: cs) = none →
      tryMatch Char.isDigit psX prev (c :: reSub Char.isDigit patArest (some c) cs) = none) :
    ∀ (n : Nat) (l : List Char) (prev : Option Char), l.length ≤ n →
      noMatch Char.isDigit psX prev (reSub Char.isDigit patArest prev l) = true := by
  intro n
  induction n with
  | zero =>
    intro l prev h
    have : l = [] := List.eq_nil_of_length_eq_zero (Nat.le_zero.mp h)
    subst this
    rw [reSub_nil]
    rfl
  | succ n ih =>
    intro l prev h
    cases l with
    | nil => rw [reSub_nil]; rfl
    | cons c cs =>
      simp only [List.length_cons] at h
      cases htm : tryMatch Char.isDigit patArest prev (c :: cs) with
      | none =>
        rw [reSub_eq_none htm]
        simp only [noMatch, Bool.and_eq_true]
        constructor
        · rw [hstep prev c cs htm]; rfl
        · exact ih cs (some c) (by omega)
      | some rest =>
        obtain ⟨hw, hm, hb⟩ := tryMatch_some_elim htm
        obtain ⟨a0, a1, a2, a3, a4, a5, a6, a7, heq, e0, e1, e2, e3, e4, e5, e6, e7⟩ :=
          matchPat_patA hm
        rw [reSub_eq_some htm]
        have hctx : (List.take (patArest.length + 1) (c :: cs)).getLast? = some a7 := by
          rw [heq]; rfl
        rw [hctx, redtok_scan]
        have hlenEq := congrArg List.length heq
        simp only [List.length_cons] at hlenEq
        have hIH := ih rest (some a7) (by omega)
        refine noMatch_swap _ hIH ?_
        intro x hx
        rcases reSub_head Char.isDigit patArest (some a7) rest with he | hh | hh
        · rw [he] at hx; simp at hx
        · rw [hh] at hx
          simp only [Option.some.injEq] at hx
          subst hx
          decide
        · rw [hh] at hx
          rw [hx] at hb
          exact not_digit_of_not_word hb

theorem reSub_id_of_noMatch {p : Char → Bool} {ps : List (Char → Bool)} :
    ∀ (l : List Char) (prev : Option Char),
      noMatch p ps prev l = true → reSub p ps prev l = l := by
  intro l
  induction l with
  | nil => intro prev _; exact reSub_nil p ps prev
  | cons c cs ih =>
    intro prev h
    simp only [noMatch, Bool.and_eq_true, Option.isNone_iff_eq_none] at h
    rw [reSub_eq_none h.1]
    rw [ih (some c) h.2]

theorem noA_all (l : List Char) (prev : Option Char) :
    noMatch Char.isDigit patArest prev (reSub Char.isDigit patArest prev l) = true :=
  noScan_after patArest headA l.length l prev le_rfl

theorem noB_all (l : List Char) (prev : Option Char) :
    noMatch Char.isDigit patBrest prev (reSub Char.isDigit patArest prev l) = true :=
  noScan_after patBrest headB l.length l prev le_rfl

theorem subB_subA (l : List Char) : subB (subA l) = subA l :=
  reSub_id_of_noMatch _ _ (noB_all l none)

theorem subA_subA (l : List Char) : subA (subA l) = subA l :=
  reSub_id_of_noMatch _ _ (noA_all l none)

/-! ## Claims about the redactor and the processing simulator -/

/-- C4 (status: code bug): the spec and the source docstring intend
`redact("555-123-4567")` to produce exactly `"[REDACTED]"`, but because the
7-digit pattern is substituted first and matches the `123-4567` suffix, the
code actually produces `"555-[REDACTED]"`; the 10-digit pattern then finds
nothing.  This theorem evaluates the code at the failing input. -/
theorem redact_pattern_b_example_eval :
    redact_sensitive ("555-123-4567") = ("555-[REDACTED]") ∧
    redact_sensitive ("555-123-4567") ≠ ("[REDACTED]") := by
  constructor
  · decide
  · decide

/-- C5: redaction is idempotent — for every string `s`,
`redact(redact(s)) = redact(s)`. -/
theorem redact_idempotent (s : String) :
    redact_sensitive (redact_sensitive s) = redact_sensitive s := by
  unfold redact_sensitive
  show String.mk (subB (subA (subB (subA s.data)))) = String.mk (subB (subA s.data))
  simp only [subB_subA, subA_subA]

/-- C9: the second (10-digit-pattern) substitution step of
`_redact_sensitive` is unreachable — after the 7-digit-pattern substitution
no position of the text matches the 10-digit pattern, so the full redactor
is extensionally equal to the 7-digit-pattern-only substitution. -/
theorem redact_pattern_b_unreachable (s : String) :
    noMatch Char.isDigit patBrest none (subA s.data) = true ∧
    redact_sensitive s = String.mk (subA s.data) := by
  constructor
  · exact noB_all s.data none
  · unfold redact_sensitive
    rw [subB_subA]

/-- C6: the duration passed to `time.sleep` equals
`min(delay_per_char * len(text), max_sleep)` exactly, and in particular
equals `max_sleep` whenever `delay_per_char * len(text)` exceeds it. -/
theorem simulate_heavy_sleep_bound (delay_per_char max_sleep : ℚ) (text : String) :
    simulate_heavy_processing delay_per_char max_sleep text =
      min (delay_per_char * text.length) max_sleep ∧
    (delay_per_char * (text.length : ℚ) > max_sleep →
      simulate_heavy_processing delay_per_char max_sleep text = max_sleep) := by
  constructor
  · rfl
  · intro h
    unfold simulate_heavy_processing
    exact min_eq_right (le_of_lt h)

/-- C6 witness: at the source defaults (0.05 per character, cap 55), a
1200-character text exceeds the cap and sleeps exactly 55. -/
theorem simulate_heavy_sleep_bound_witness :
    DELAY_PER_CHAR_default * ((String.mk (List.replicate 1200 ('a'))).length : ℚ) >
      MAX_TOTAL_SLEEP_default ∧
    simulate_heavy_processing DELAY_PER_CHAR_default MAX_TOTAL_SLEEP_default
      (String.mk (List.replicate 1200 ('a'))) = MAX_TOTAL_SLEEP_default := by
  have hlen : (String.mk (List.replicate 1200 ('a'))).length = 1200 := by
    show (List.replicate 1200 ('a')).length = 1200
    rw [List.length_replicate]
  have hgt : DELAY_PER_CHAR_default * ((String.mk (List.replicate 1200 ('a'))).length : ℚ) >
      MAX_TOTAL_SLEEP_default := by
    rw [hlen]
    norm_num [DELAY_PER_CHAR_default, MAX_TOTAL_SLEEP_default]
  exact ⟨hgt, (simulate_heavy_sleep_bound DELAY_PER_CHAR_default MAX_TOTAL_SLEEP_default
    (String.mk (List.replicate 1200 ('a')))).2 hgt⟩

/-! ## Lemmas about the Firestore model -/

theorem getField_upsert_self (d : Doc) (k v : String) :
    getField (upsertField d k v) k = some v := by
  induction d with
  | nil => simp [upsertField, getField]
  | cons e rest ih =>
    obtain ⟨k0, v0⟩ := e
    by_cases h : k0 = k
    · subst h
      simp [upsertField, getField]
    · simp [upsertField, getField, h, ih]

theorem getField_upsert_other (d : Doc) (k v k2 : String) (hne : k2 ≠ k) :
    getField (upsertField d k v) k2 = getField d k2 := by
  induction d with
  | nil => simp [upsertField, getField, Ne.symm hne]
  | cons e rest ih =>
    obtain ⟨k0, v0⟩ := e
    by_cases h : k0 = k
    · subst h
      simp [upsertField, getField, Ne.symm hne]
    · simp [upsertField, getField, h, ih]

theorem getField_merge4 (d : Doc) (src ot md pa : String) :
    getField (mergeDoc d [(("source"), src), (("original_text"), ot),
      (("modified_data"), md), (("processed_at"), pa)]) ("source") = some src ∧
    getField (mergeDoc d [(("source"), src), (("original_text"), ot),
      (("modified_data"), md), (("processed_at"), pa)]) ("original_text") = some ot ∧
    getField (mergeDoc d [(("source"), src), (("original_text"), ot),
      (("modified_data"), md), (("processed_at"), pa)]) ("modified_data") = some md := by
  simp only [mergeDoc, List.foldl]
  refine ⟨?_, ?_, ?_⟩
  · rw [getField_upsert_other _ ("processed_at") pa ("source") (by decide),
      getField_upsert_other _ ("modified_data") md ("source") (by decide),
      getField_upsert_other _ ("original_text") ot ("source") (by decide),
      getField_upsert_self]
  · rw [getField_upsert_other _ ("processed_at") pa ("original_text") (by decide),
      getField_upsert_other _ ("modified_data") md ("original_text") (by decide),
      getField_upsert_self]
  · rw [getField_upsert_other _ ("processed_at") pa ("modified_data") (by decide),
      getField_upsert_self]

theorem getDoc_set_merge_self (st : Store) (p : DocPath) (f : Doc) :
    getDoc (set_merge st p f) p =
      some (match getDoc st p with | some d => mergeDoc d f | none => f) := by
  induction st with
  | nil => simp [set_merge, getDoc]
  | cons e rest ih =>
    obtain ⟨q, d⟩ := e
    by_cases h : q = p
    · subst h
      simp [set_merge, getDoc]
    · simp [set_merge, getDoc, h, ih]

theorem getDoc_set_merge_other (st : Store) (p q : DocPath) (f : Doc) (h : q ≠ p) :
    getDoc (set_merge st p f) q = getDoc st q := by
  induction st with
  | nil => simp [set_merge, getDoc, Ne.symm h]
  | cons e rest ih =>
    obtain ⟨k, d⟩ := e
    by_cases hk : k = p
    · subst hk
      simp [set_merge, getDoc, Ne.symm h]
    · simp [set_merge, getDoc, hk, ih]

theorem countKey_set_merge (st : Store) (p : DocPath) (f : Doc) :
    countKey (set_merge st p f) p = max (countKey st p) 1 := by
  induction st with
  | nil => simp [set_merge, countKey]
  | cons e rest ih =>
    obtain ⟨k, d⟩ := e
    by_cases hk : k = p
    · subst hk
      have e1 : set_merge ((k, d) :: rest) k f = (k, mergeDoc d f) :: rest := by
        simp [set_merge]
      rw [e1]
      have e2 : ∀ (dd : Doc) (tl : Store), countKey ((k, dd) :: tl) k = 1 + countKey tl k := by
        intro dd tl
        simp [countKey]
      rw [e2, e2]
      omega
    · simp only [set_merge, if_neg hk, countKey, if_neg hk, ih]
      omega

theorem contentView_set_merge (st : Store) (pth : DocPath) (src ot md pa : String) :
    contentView (set_merge st pth [(("source"), src), (("original_text"), ot),
      (("modified_data"), md), (("processed_at"), pa)]) pth =
      some (some src, some ot, some md) := by
  unfold contentView
  rw [getDoc_set_merge_self]
  cases hd : getDoc st pth with
  | none =>
    simp only [hd]
    rfl
  | some d =>
    simp only [hd]
    obtain ⟨h1, h2, h3⟩ := getField_merge4 d src ot md pa
    simp [h1, h2, h3]

/-- The write branch of `process_log`, fully evaluated for an event carrying
the three attributes explicitly. -/
theorem process_log_writes (tenant log source text now : String) (st : Store)
    (htext : text ≠ ("")) (ht : tenant ≠ ("")) (hl : log ≠ ("")) :
    process_log ⟨text, [(("tenant_id"), tenant), (("log_id"), log), (("source"), source)]⟩
        st now =
      ⟨none, set_merge st (doc_path tenant log)
        [(("source"), source), (("original_text"), text),
         (("modified_data"), redact_sensitive text), (("processed_at"), now)]⟩ := by
  have ha1 : lookupStr [(("tenant_id"), tenant), (("log_id"), log), (("source"), source)]
      ("tenant_id") = some tenant := rfl
  have ha2 : lookupStr [(("tenant_id"), tenant), (("log_id"), log), (("source"), source)]
      ("log_id") = some log := rfl
  have ha3 : lookupStr [(("tenant_id"), tenant), (("log_id"), log), (("source"), source)]
      ("source") = some source := rfl
  simp only [process_log, ha1, ha2, ha3, if_neg htext]
  rw [if_neg (by simp [strTruthy, ht, hl])]
  simp [Option.getD]

/-! ## Claims about the worker's persistence -/

/-- C1: writing the processed record twice with identical inputs against
the same `(tenant_id, log_id)` key succeeds both times, leaves a stored
record whose `source`, `original_text` and `modified_data` fields are the
same after both writes (only `processed_at` may differ — it is excluded
from `contentView`), and never produces a second document for that key. -/
theorem process_log_write_idempotent
    (tenant log source text now1 now2 : String) (st : Store) (ev : PubSubEvent)
    (hev : ev = ⟨text, [(("tenant_id"), tenant), (("log_id"), log), (("source"), source)]⟩)
    (htext : text ≠ ("")) (ht : tenant ≠ ("")) (hl : log ≠ (""))
    (hwf : countKey st (doc_path tenant log) ≤ 1) :
    (process_log ev st now1).err = none ∧
    (process_log ev (process_log ev st now1).store now2).err = none ∧
    contentView (process_log ev st now1).store (doc_path tenant log) =
      some (some source, some text, some (redact_sensitive text)) ∧
    contentView (process_log ev (process_log ev st now1).store now2).store
        (doc_path tenant log) =
      some (some source, some text, some (redact_sensitive text)) ∧
    countKey (process_log ev (process_log ev st now1).store now2).store
        (doc_path tenant log) = 1 := by
  subst hev
  rw [process_log_writes tenant log source text now1 st htext ht hl]
  try dsimp only
  rw [process_log_writes tenant log source text now2 _ htext ht hl]
  try dsimp only
  refine ⟨rfl, rfl, ?_, ?_, ?_⟩
  · exact contentView_set_merge st (doc_path tenant log) source text
      (redact_sensitive text) now1
  · exact contentView_set_merge _ (doc_path tenant log) source text
      (redact_sensitive text) now2
  · rw [countKey_set_merge, countKey_set_merge]
    omega

/-- C1 witness: two writes for `("t1", "l1")` on the empty store. -/
theorem process_log_write_idempotent_witness :
    (process_log ⟨("hi"), [(("tenant_id"), ("t1")), (("log_id"), ("l1")),
        (("source"), ("json_upload"))]⟩ [] ("n1")).err = none ∧
    (process_log ⟨("hi"), [(("tenant_id"), ("t1")), (("log_id"), ("l1")),
        (("source"), ("json_upload"))]⟩
      (process_log ⟨("hi"), [(("tenant_id"), ("t1")), (("log_id"), ("l1")),
        (("source"), ("json_upload"))]⟩ [] ("n1")).store ("n2")).err = none ∧
    contentView (process_log ⟨("hi"), [(("tenant_id"), ("t1")), (("log_id"), ("l1")),
        (("source"), ("json_upload"))]⟩ [] ("n1")).store (doc_path ("t1") ("l1")) =
      some (some ("json_upload"), some ("hi"), some (redact_sensitive ("hi"))) ∧
    contentView (process_log ⟨("hi"), [(("tenant_id"), ("t1")), (("log_id"), ("l1")),
        (("source"), ("json_upload"))]⟩
      (process_log ⟨("hi"), [(("tenant_id"), ("t1")), (("log_id"), ("l1")),
        (("source"), ("json_upload"))]⟩ [] ("n1")).store ("n2")).store
        (doc_path ("t1") ("l1")) =
      some (some ("json_upload"), some ("hi"), some (redact_sensitive ("hi"))) ∧
    countKey (process_log ⟨("hi"), [(("tenant_id"), ("t1")), (("log_id"), ("l1")),
        (("source"), ("json_upload"))]⟩
      (process_log ⟨("hi"), [(("tenant_id"), ("t1")), (("log_id"), ("l1")),
        (("source"), ("json_upload"))]⟩ [] ("n1")).store ("n2")).store
        (doc_path ("t1") ("l1")) = 1 :=
  process_log_write_idempotent ("t1") ("l1") ("json_upload") ("hi") ("n1") ("n2") [] _
    rfl (by decide) (by decide) (by decide) (by decide)

/-- C2: records of two different tenants with the same `log_id` live at
distinct document keys, and a worker invocation whose `tenant_id`
attribute is `t1` leaves every document of any other tenant unchanged. -/
theorem process_log_tenant_isolation :
    (∀ (t1 t2 lg : String), t1 ≠ t2 → doc_path t1 lg ≠ doc_path t2 lg) ∧
    (∀ (ev : PubSubEvent) (st : Store) (now t1 t2 lg : String),
      lookupStr ev.attributes ("tenant_id") = some t1 → t2 ≠ t1 →
      getDoc (process_log ev st now).store (doc_path t2 lg) =
        getDoc st (doc_path t2 lg)) := by
  constructor
  · intro t1 t2 lg h hcontra
    simp only [doc_path, List.cons.injEq] at hcontra
    exact h hcontra.2.1
  · intro ev st now t1 t2 lg hattr hne
    by_cases hdata : ev.data = ("")
    · simp [process_log, hdata]
    · by_cases hg : strTruthy (lookupStr ev.attributes ("tenant_id")) = false ∨
          strTruthy (lookupStr ev.attributes ("log_id")) = false
      · simp only [process_log, if_neg hdata, if_pos hg]
      · simp only [process_log, if_neg hdata, if_neg hg]
        try dsimp only
        rw [hattr]
        simp only [Option.getD_some]
        apply getDoc_set_merge_other
        intro hcontra
        simp only [doc_path, List.cons.injEq] at hcontra
        exact hne hcontra.2.1

/-- C2 witness: a write for tenant `t1` leaves tenant `t2`'s key alone,
and the two keys are distinct. -/
theorem process_log_tenant_isolation_witness :
    doc_path ("t1") ("l1") ≠ doc_path ("t2") ("l1") ∧
    getDoc (process_log ⟨("hi"), [(("tenant_id"), ("t1")), (("log_id"), ("l1"))]⟩
        [] ("now")).store (doc_path ("t2") ("l1")) =
      getDoc ([] : Store) (doc_path ("t2") ("l1")) :=
  ⟨process_log_tenant_isolation.1 ("t1") ("t2") ("l1") (by decide),
   process_log_tenant_isolation.2 ⟨("hi"), [(("tenant_id"), ("t1")), (("log_id"), ("l1"))]⟩
     [] ("now") ("t1") ("t2") ("l1") rfl (by decide)⟩

/-- C3: a delivered message with a non-empty body whose attributes lack
`tenant_id` or `log_id` (missing or empty) makes the worker raise
(`RuntimeError`, the spec's `MissingIdentityError`) and perform no storage
write: the store is returned unchanged. -/
theorem process_log_missing_identity (ev : PubSubEvent) (st : Store) (now : String)
    (hbody : ev.data ≠ (""))
    (hmiss : strTruthy (lookupStr ev.attributes ("tenant_id")) = false ∨
      strTruthy (lookupStr ev.attributes ("log_id")) = false) :
    process_log ev st now =
      ⟨some (WorkerErr.runtimeError
        ("Missing tenant_id or log_id in Pub/Sub message attributes")), st⟩ := by
  simp only [process_log, if_neg hbody, if_pos hmiss]

/-- C3 witness: a non-empty message carrying only a `log_id` attribute. -/
theorem process_log_missing_identity_witness :
    (("x" : String) ≠ ("")) ∧
    process_log ⟨("x"), [(("log_id"), ("l1"))]⟩ [] ("now") =
      ⟨some (WorkerErr.runtimeError
        ("Missing tenant_id or log_id in Pub/Sub message attributes")), []⟩ :=
  ⟨by decide, process_log_missing_identity ⟨("x"), [(("log_id"), ("l1"))]⟩ [] ("now")
    (by decide) (Or.inl rfl)⟩

/-! ## Claims about the intake normalizers and entry point -/

/-- C7 counterexample: a `text/plain` request with a valid tenant header
and an empty body is accepted by `_normalize_text` and produces a
`NormalizedMessage` whose `text` field is empty — the body is never
checked for emptiness on the plain-text path. -/
theorem normalize_text_empty_text_counterexample :
    normalize_text ⟨("POST"), [(("Content-Type"), ("text/plain")),
        (("X-Tenant-ID"), ("acme"))], none, some ("")⟩ ("gid") =
      .ok ⟨("acme"), .str ("gid"), (""), ("text_upload")⟩ := rfl

/-- C7 amended: every `NormalizedMessage` produced by the JSON normalizer
has a non-empty `text`; the plain-text normalizer copies the decoded body
verbatim into `text`, which may therefore be empty. -/
theorem normalize_intake_text_amended :
    (∀ (req : Request) (gen : String) (m : NormalizedIntake),
      normalize_json req gen = .ok m → m.text ≠ ("")) ∧
    (∀ (req : Request) (gen : String) (m : NormalizedIntake),
      normalize_text req gen = .ok m → req.body_utf8 = some m.text) := by
  constructor
  · intro req gen m hok
    unfold normalize_json at hok
    repeat' (first | (split at hok) | (dsimp only at hok))
    all_goals try exact Except.noConfusion hok
    all_goals (injection hok with h; subst h; assumption)
  · intro req gen m hok
    unfold normalize_text at hok
    repeat' (first | (split at hok) | (dsimp only at hok))
    all_goals try exact Except.noConfusion hok
    all_goals (injection hok with h; subst h; assumption)

/-- C7 amended witness: a valid JSON request yields non-empty text. -/
theorem normalize_intake_text_amended_witness :
    normalize_json ⟨("POST"), [], some (.obj [(("tenant_id"), .str ("acme")),
        (("text"), .str ("hello"))]), none⟩ ("gid") =
      .ok ⟨("acme"), .str ("gid"), ("hello"), ("json_upload")⟩ ∧
    (⟨("acme"), .str ("gid"), ("hello"), ("json_upload")⟩ : NormalizedIntake).text ≠ ("") :=
  ⟨rfl, normalize_intake_text_amended.1 ⟨("POST"), [], some (.obj [(("tenant_id"),
    .str ("acme")), (("text"), .str ("hello"))]), none⟩ ("gid") _ rfl⟩

/-- C8: the intake entry point always returns an HTTP response with the
documented mapping — non-POST methods get 405; an unsupported content
kind gets 400 with the "Unsupported Content-Type..." message; a
`BadRequest` raised by either normalizer is returned with its own status
(400 at every raise site) and body `{"error": message}`; any other
exception escaping a normalizer maps to 500. -/
theorem ingest_error_mapping (req : Request) (gen : String) :
    (req.method ≠ ("POST") →
      ingest req gen = make_response (.obj [(("error"), .str ("Method not allowed"))]) 405) ∧
    (req.method = ("POST") →
      containsSub ("application/json").data (contentTypeOf req).data = false →
      containsSub ("text/plain").data (contentTypeOf req).data = false →
      ingest req gen = make_response (.obj [(("error"),
        .str ("Unsupported Content-Type. Use application/json or text/plain."))]) 400) ∧
    (∀ (msg : String) (code : Nat), req.method = ("POST") →
      containsSub ("application/json").data (contentTypeOf req).data = true →
      normalize_json req gen = .error (.badRequest msg code) →
      ingest req gen = make_response (.obj [(("error"), .str msg)]) code) ∧
    (∀ (msg : String) (code : Nat), req.method = ("POST") →
      containsSub ("application/json").data (contentTypeOf req).data = false →
      containsSub ("text/plain").data (contentTypeOf req).data = true →
      normalize_text req gen = .error (.badRequest msg code) →
      ingest req gen = make_response (.obj [(("error"), .str msg)]) code) ∧
    (∀ (d : String), req.method = ("POST") →
      containsSub ("application/json").data (contentTypeOf req).data = true →
      normalize_json req gen = .error (.otherError d) →
      ingest req gen = make_response (.obj [(("error"), .str ("Internal server error")),
        (("detail"), .str d)]) 500) ∧
    (∀ (d : String), req.method = ("POST") →
      containsSub ("application/json").data (contentTypeOf req).data = false →
      containsSub ("text/plain").data (contentTypeOf req).data = true →
      normalize_text req gen = .error (.otherError d) →
      ingest req gen = make_response (.obj [(("error"), .str ("Internal server error")),
        (("detail"), .str d)]) 500) := by
  refine ⟨?_, ?_, ?_, ?_, ?_, ?_⟩
  · intro h
    unfold ingest
    rw [if_pos h]
  · intro hp hj ht
    unfold ingest
    rw [if_neg (fun hn => hn hp)]
    dsimp only
    rw [hj, ht]
    rfl
  · intro msg code hp hj herr
    unfold ingest
    rw [if_neg (fun hn => hn hp)]
    dsimp only
    rw [hj, herr]
    rfl
  · intro msg code hp hj ht herr
    unfold ingest
    rw [if_neg (fun hn => hn hp)]
    dsimp only
    rw [hj, ht, herr]
    rfl
  · intro d hp hj herr
    unfold ingest
    rw [if_neg (fun hn => hn hp)]
    dsimp only
    rw [hj, herr]
    rfl
  · intro d hp hj ht herr
    unfold ingest
    rw [if_neg (fun hn => hn hp)]
    dsimp only
    rw [hj, ht, herr]
    rfl

/-- C8 witness: a GET request is rejected with status 405. -/
theorem ingest_error_mapping_witness :
    (("GET" : String) ≠ ("POST")) ∧
    ingest ⟨("GET"), [], none, none⟩ ("g") =
      make_response (.obj [(("error"), .str ("Method not allowed"))]) 405 :=
  ⟨by decide, (ingest_error_mapping ⟨("GET"), [], none, none⟩ ("g")).1 (by decide)⟩

/-- C10: the JSON normalizer never type-checks a caller-supplied
`log_id`: on a body with valid `tenant_id` and `text`, any truthy
`log_id` value — including a non-string — is returned verbatim, while a
falsy or absent `log_id` (missing, empty string, null, 0, false) is
replaced by the freshly generated identifier `gen`. -/
theorem normalize_json_log_id_untyped (req : Request) (gen : String)
    (fields : List (String × JsonVal)) (t x : String)
    (hbody : req.json_body = some (.obj fields))
    (hT : dictGet fields ("tenant_id") = some (.str t)) (ht : t ≠ (""))
    (hX : dictGet fields ("text") = some (.str x)) (hx : x ≠ ("")) :
    (∀ (v : JsonVal), dictGet fields ("log_id") = some v → jsonTruthy v = true →
      normalize_json req gen = .ok ⟨t, v, x, ("json_upload")⟩) ∧
    (∀ (v : JsonVal), dictGet fields ("log_id") = some v → jsonTruthy v = false →
      normalize_json req gen = .ok ⟨t, .str gen, x, ("json_upload")⟩) ∧
    (dictGet fields ("log_id") = none →
      normalize_json req gen = .ok ⟨t, .str gen, x, ("json_upload")⟩) := by
  refine ⟨?_, ?_, ?_⟩
  · intro v hv htv
    unfold normalize_json
    rw [hbody]
    dsimp only
    rw [hv, hT, hX]
    dsimp only
    rw [if_neg ht, if_neg hx, htv]
    rfl
  · intro v hv htv
    unfold normalize_json
    rw [hbody]
    dsimp only
    rw [hv, hT, hX]
    dsimp only
    rw [if_neg ht, if_neg hx, htv]
    rfl
  · intro hv
    unfold normalize_json
    rw [hbody]
    dsimp only
    rw [hv, hT, hX]
    dsimp only
    rw [if_neg ht, if_neg hx]

/-- C10 witness: a numeric `log_id` (7) is accepted and returned
verbatim, untouched by any type check. -/
theorem normalize_json_log_id_untyped_witness :
    normalize_json ⟨("POST"), [], some (.obj [(("tenant_id"), .str ("acme")),
        (("text"), .str ("hi")), (("log_id"), .num 7)]), none⟩ ("gid") =
      .ok ⟨("acme"), .num 7, ("hi"), ("json_upload")⟩ :=
  (normalize_json_log_id_untyped ⟨("POST"), [], some (.obj [(("tenant_id"), .str ("acme")),
      (("text"), .str ("hi")), (("log_id"), .num 7)]), none⟩ ("gid")
    [(("tenant_id"), .str ("acme")), (("text"), .str ("hi")), (("log_id"), .num 7)]
    ("acme") ("hi") rfl rfl (by decide) rfl (by decide)).1 (.num 7) rfl rfl
